import Mathlib

/-!
Verification development for the email notification service of
`tc-notifications` (`src/connect/notificationServices/email.js`).

The JavaScript source is shallowly embedded below.  Conventions:

* JS objects holding notification `contents` are association lists
  `List (String × String)`; property access is first-match lookup
  (`lookupAssoc`), an absent key models JS `undefined`.
* JS values that may be `undefined` are `Option String`; JS truthiness of
  such a value is `jsTruthy` (`undefined` and `''` are falsy).
* `_.map(data, field)` yields one entry per item (`Option String`), and
  `Array.prototype.join` renders `undefined` entries as the empty string.
* The static configuration modules `events-config.js` (EVENT_BUNDLES) and
  `constants.js` (period table, service ids) are not part of the provided
  sources, so functions are parameterised by them; their shapes follow the
  spec's data model (BundleGroupDefinition, period table).
-/

namespace TcEmail

/-- Association-list lookup, modelling JS object property access:
`obj[k]` is the value of the first binding of `k`, or `undefined` (`none`). -/
def lookupAssoc (l : List (String × α)) (k : String) : Option α :=
  (l.find? (fun p => p.1 == k)).map (·.2)

/-- JS truthiness of a possibly-`undefined` string: `undefined` and the
empty string are falsy, every other string is truthy. -/
def jsTruthy : Option String → Bool
  | none => false
  | some s => !(s == "")

/-- Notification `contents` object (the `data.data` payload of an event):
a string-keyed record with string-rendered values. -/
abbrev Contents := List (String × String)

/-- Rendering of a possibly-`undefined` value inside `Array.prototype.join`:
JS renders `undefined` as the empty string. -/
def optStr : Option String → String
  | none => ""
  | some s => s

/-- Embeds `values.join(', ')` from `replacePlaceholders` (email.js line 34),
where `values = _.map(data, field)` may contain `undefined` entries. -/
def joinValues (vs : List (Option String)) : String :=
  String.intercalate ", " (vs.map optStr)

/-- Character class `[a-zA-Z]` of the placeholder regex (email.js line 25). -/
def isEngLetter (c : Char) : Bool :=
  ('a' ≤ c && c ≤ 'z') || ('A' ≤ c && c ≤ 'Z')

/-- Fuel-driven scanner for `term.match(/<[a-zA-Z]+>/g)` (email.js line 25):
returns the non-overlapping matches, left to right.  At a `<` the scanner
takes the maximal run of letters; the match succeeds iff the run is
nonempty and followed by `>` (the regex needs at least one letter and the
letter class excludes both brackets, so no backtracking arises).  The fuel
argument only makes the recursion structural; it is called with the string
length, which bounds the number of scanning steps. -/
def matchTokensAux : Nat → List Char → List (List Char)
  | 0, _ => []
  | _ + 1, [] => []
  | fuel + 1, c :: rest =>
    if c = '<' then
      match rest.dropWhile isEngLetter with
      | '>' :: rs =>
        if (rest.takeWhile isEngLetter).isEmpty then
          matchTokensAux fuel rest
        else
          ('<' :: (rest.takeWhile isEngLetter ++ ['>'])) :: matchTokensAux fuel rs
      | _ => matchTokensAux fuel rest
    else
      matchTokensAux fuel rest

/-- All matches of the placeholder regex `/<[a-zA-Z]+>/g` in `term`
(email.js line 25), as strings such as `"<name>"`, in order and with
duplicates kept, exactly as `String.prototype.match` returns them. -/
def matchPlaceholders (term : String) : List String :=
  (matchTokensAux term.length term.toList).map (fun cs => String.mk cs)

/-- Embeds `p.slice(1, -1)` (email.js line 29): strips the surrounding
angle brackets of a placeholder token, leaving the field name. -/
def sliceField (p : String) : String :=
  String.mk ((p.toList.drop 1).dropLast)

/-- Replacement of the first occurrence of `pat` in a character list,
modelling `String.prototype.replace` with a string pattern (which replaces
only the leftmost occurrence; the replacement is inserted literally). -/
def replaceFirstCs : List Char → List Char → List Char → List Char
  | [], pat, repl => if pat.isEmpty then repl else []
  | c :: cs, pat, repl =>
    if pat.isPrefixOf (c :: cs) then repl ++ (c :: cs).drop pat.length
    else c :: replaceFirstCs cs pat repl

/-- Embeds `ret.replace(p, replacement)` (email.js line 34) on strings. -/
def replaceFirst (s pat repl : String) : String :=
  String.mk (replaceFirstCs s.toList pat.toList repl.toList)

/-- Embeds the ternary of email.js lines 31-33: the display string computed
into the local variable `replacement` — fewer than 3 values are joined with
`', '`, otherwise the first two are joined and `' and ' + (total-3) +
'others'` is appended (note the source's `total - 3` arithmetic and the
missing space before `others`). -/
def computeReplacement (vs : List (Option String)) : String :=
  if vs.length < 3 then joinValues vs
  else joinValues (vs.take 2) ++ " and " ++ toString (vs.length - 3) ++ "others"

/-- Embeds `replacePlaceholders(term, data)` (email.js lines 24-38).
For each regex match `p`, the field values are extracted from every item of
`data`, the local `replacement` is computed (and, as in the source, never
used), and the first occurrence of `p` in the accumulator is replaced with
the comma-joined full value list. -/
def replacePlaceholders (term : String) (data : List Contents) : String :=
  (matchPlaceholders term).foldl
    (fun ret p =>
      let values := data.map (fun item => lookupAssoc item (sliceField p))
      let _replacement := computeReplacement values
      replaceFirst ret p (joinValues values))
    term

/-- Refinement target following the spec's words for the Placeholder
Resolver: each placeholder token is replaced in the template by the
un-truncated comma-joined full list of the field's values, with no
truncated display string involved at all. -/
def replacePlaceholdersUntruncated (term : String) (data : List Contents) : String :=
  (matchPlaceholders term).foldl
    (fun ret p =>
      replaceFirst ret p (joinValues (data.map (fun item => lookupAssoc item (sliceField p)))))
    term

/-- First-occurrence key deduplication with an accumulator of already-seen
keys; `dedupKeysAux seen l` keeps, in order, the members of `l` that are
neither in `seen` nor duplicates of an earlier member. -/
def dedupKeysAux (seen : List String) : List String → List String
  | [] => []
  | k :: ks =>
    if seen.contains k then dedupKeysAux seen ks
    else k :: dedupKeysAux (k :: seen) ks

/-- Keys of a list in order of first occurrence, without duplicates. -/
def dedupKeys (l : List String) : List String :=
  dedupKeysAux [] l

/-- Embeds lodash `_.groupBy`: one entry per distinct key of `f`, in order
of first occurrence, each carrying the sub-list of items with that key in
their original order.  (The JS runtime iterates integer-like object keys
numerically first; no property proved below depends on the order of the
entries, only on their contents.) -/
def groupByKey (f : α → String) (l : List α) : List (String × List α) :=
  (dedupKeys (l.map f)).map (fun k => (k, l.filter (fun x => f x == k)))

/-- Bundle group definition from the static `EVENT_BUNDLES` configuration
(events-config.js, not part of the provided sources).  Modelled from the
spec: `BundleGroupDefinition = { groupKey, types, title, subject,
groupBy? }`. -/
structure BundleGroup where
  types : List String
  title : String
  subject : String
  groupBy : Option String
deriving DecidableEq

/-- Ordered `EVENT_BUNDLES` configuration: group keys with their
definitions, in declaration order. -/
abbrev BundlesConfig := List (String × BundleGroup)

/-- Property access `EVENT_BUNDLES[key]`. -/
def lookupBundle (bundles : BundlesConfig) (k : String) : Option BundleGroup :=
  lookupAssoc bundles k

/-- The event's type as read by the classifier:
`_.get(value, 'data.data.type')` (email.js line 145), i.e. the `type`
field of the event's contents. -/
def eventTypeOf (c : Contents) : Option String :=
  lookupAssoc c "type"

/-- One key test of the classifier scan (email.js line 145):
`_.includes(group.types, _.get(value, 'data.data.type'))`; an absent type
is contained in no list. -/
def typeMatches (c : Contents) (g : BundleGroup) : Bool :=
  match eventTypeOf c with
  | some t => g.types.contains t
  | none => false

/-- Embeds `getEventGroupKey` (email.js lines 142-149): the key of the
first configured group whose `types` contains the event's type, else the
sentinel `'DEFAULT'`.  The source's `if (!key) return 'DEFAULT'` also maps
a found-but-falsy (empty-string) key to the sentinel, which the embedding
keeps.  Events are represented by their `data.data` contents object. -/
def getEventGroupKey (bundles : BundlesConfig) (c : Contents) : String :=
  match bundles.find? (fun kb => typeMatches c kb.2) with
  | some kb => if kb.1 == "" then "DEFAULT" else kb.1
  | none => "DEFAULT"

/-- One section of a bundled email (email.js lines 46-50 and 56-60): the
resolved title, the dynamic `[key]: true` flag (modelled by storing the
key), and the raw contents list of the partition. -/
structure Section where
  title : String
  key : String
  notifications : List Contents
deriving DecidableEq

/-- Sub-grouping key `n.data.data[groupBy]` used by the inner `_.groupBy`
of `getSections` (email.js line 52); JS stringifies an `undefined` field
value into the object key `"undefined"`. -/
def subGroupKey (f : String) (c : Contents) : String :=
  match lookupAssoc c f with
  | some v => v
  | none => "undefined"

/-- Sections emitted for one classification group (email.js lines 45-62):
without `groupBy` a single section over the whole group, with `groupBy`
one section per distinct field value; a missing `EVENT_BUNDLES[key]`
definition is the JS `TypeError` of line 45, modelled as `none`. -/
def sectionsForGroup (bundles : BundlesConfig) (k : String) (grp : List Contents) :
    Option (List Section) :=
  match lookupBundle bundles k with
  | none => none
  | some g =>
    match g.groupBy with
    | none =>
      some [{ title := replacePlaceholders g.title grp, key := k, notifications := grp }]
    | some f =>
      some ((groupByKey (subGroupKey f) grp).map (fun kg =>
        { title := replacePlaceholders g.title kg.2, key := k, notifications := kg.2 }))

/-- Option-valued traversal of a list; `none` as soon as `f` fails,
modelling a JS exception escaping a loop. -/
def traverseOption (f : α → Option β) : List α → Option (List β)
  | [] => some []
  | a :: as =>
    match f a, traverseOption f as with
    | some b, some bs => some (b :: bs)
    | _, _ => none

/-- Embeds `getSections(projectUserEvents)` (email.js lines 40-67): group
the events by classifier key, emit each group's section(s) in iteration
order.  Events are represented by their `data.data` contents objects. -/
def getSections (bundles : BundlesConfig) (events : List Contents) :
    Option (List Section) :=
  (traverseOption (fun kg => sectionsForGroup bundles kg.1 kg.2)
      (groupByKey (getEventGroupKey bundles) events)).map List.flatten

/-- Read-only configuration surface used by the service (config module;
values are externally supplied, so functions take them as a parameter). -/
structure Config where
  CONNECT_URL : String
  DEFAULT_REPLY_EMAIL : String
  REPLY_EMAIL_FROM : String
  MENTION_EMAIL : String
  ENABLE_DEV_MODE : String
  DEV_MODE_EMAIL : String
  ENV : String
deriving DecidableEq

/-- Saved outbound message of a scheduled event (its `data` field): the
recipients captured at scheduling time and the `data.data` contents map.
Further saved fields (`version`, `from`, `categories`) are either
overwritten by the batch path or never inspected by the verified claims
and are omitted from the embedding. -/
structure EvtMessage where
  recipients : List (Option String)
  data : Contents
deriving DecidableEq

/-- Due scheduled event as handed to `handleScheduledEvents`: its `userId`
and its saved message. -/
structure SchedEvt where
  userId : String
  data : EvtMessage
deriving DecidableEq

/-- Per-project bundle of the aggregated email (email.js lines 91-95). -/
structure ProjectBundle where
  id : Option String
  name : Option String
  sections : List Section
deriving DecidableEq

/-- The `bundleData` payload (email.js lines 86-98). -/
structure BundledData where
  subject : String
  connectURL : String
  projects : List ProjectBundle
deriving DecidableEq

/-- Outbound bundled message for one user (email.js lines 102-113): the
first event's saved message with reply/from/version fields overridden and
`data` replaced by the bundle payload. -/
structure BundleOut where
  recipients : List (Option String)
  replyTo : String
  fromName : String
  fromEmail : String
  version : String
  cc : List String
  data : BundledData
deriving DecidableEq

/-- Project bundle for one project's events (email.js lines 91-95):
`id`/`name` from the first event's contents, sections from the Section
Builder; a builder failure (missing bundle definition) propagates. -/
def buildProjectBundle (bundles : BundlesConfig) (pes : List SchedEvt) :
    Option ProjectBundle :=
  (getSections bundles (pes.map (fun e => e.data.data))).map (fun secs =>
    { id := pes.head?.bind (fun e => lookupAssoc e.data.data "projectId"),
      name := pes.head?.bind (fun e => lookupAssoc e.data.data "projectName"),
      sections := secs })

/-- Aggregated outbound message for one user's due events (email.js lines
86-113): group the events by `data.data.projectId` (object-key conversion
stringifies a missing id, as in `subGroupKey`), build one project bundle
per project, and assemble the message from the first event's saved data
and the static subject line. -/
def bundleOutFor (bundles : BundlesConfig) (cfg : Config)
    (userEvents : List SchedEvt) : Option BundleOut :=
  match userEvents with
  | [] => none
  | e0 :: _ =>
    (traverseOption (fun pg => buildProjectBundle bundles pg.2)
        (groupByKey (fun e => subGroupKey "projectId" e.data.data) userEvents)).map
      (fun projects =>
        { recipients := e0.data.recipients,
          replyTo := cfg.DEFAULT_REPLY_EMAIL,
          fromName := cfg.REPLY_EMAIL_FROM,
          fromEmail := cfg.DEFAULT_REPLY_EMAIL,
          version := "v3",
          cc := [],
          data := { subject := "Your Topcoder project updates",
                    connectURL := cfg.CONNECT_URL,
                    projects := projects } })

/-- Terminal status written back for processed scheduled events
(`SCHEDULED_EVENT_STATUS`). -/
inductive ScheduledStatus where
  | COMPLETED
  | FAILED
deriving DecidableEq

/-- Embeds `handleScheduledEvents(events, setEventsStatus)` (email.js lines
77-133).  The asynchronous dispatch outcome is abstracted by the oracle
`dispatchOk` on the posted payload; the returned pair collects, in user
order, the outbound dispatches (one per user) and the status write-backs
(`setEventsStatus(userEvents, status)` calls).  A rejected dispatch is
caught by the source's `.catch` and becomes a `FAILED` write-back, never a
thrown error; a missing bundle-group definition while building sections is
the only failure (`none`). -/
def handleScheduledEvents (bundles : BundlesConfig) (cfg : Config)
    (events : List SchedEvt) (dispatchOk : BundleOut → Bool) :
    Option (List BundleOut × List (List SchedEvt × ScheduledStatus)) :=
  if events.isEmpty then some ([], [])
  else
    (traverseOption
        (fun ug => (bundleOutFor bundles cfg ug.2).map (fun m => (ug.2, m)))
        (groupByKey SchedEvt.userId events)).map
      (fun pairs =>
        (pairs.map Prod.snd,
         pairs.map (fun p =>
           (p.1, if dispatchOk p.2 then ScheduledStatus.COMPLETED
                 else ScheduledStatus.FAILED))))

/-- Per-service entry of the per-notification-type settings:
`{ enabled: 'yes' | 'no' }`, possibly absent. -/
structure ServiceSetting where
  enabled : Option String
deriving DecidableEq

/-- Per-service entry of `settings.services`: the optional
`bundlePeriod`. -/
structure EmailServiceSettings where
  bundlePeriod : Option String
deriving DecidableEq

/-- Read-only per-user settings snapshot returned by the settings
collaborator: nested per-type per-service flags and per-service options. -/
structure Settings where
  notifications : List (String × List (String × ServiceSetting))
  services : List (String × EmailServiceSettings)
deriving DecidableEq

/-- Modelled from the spec: the email service identifier constant
(`SETTINGS_EMAIL_SERVICE_ID` from constants.js, which is not among the
provided sources).  The verified claims depend only on it being a fixed
identifier distinct from the bundling one. -/
def SETTINGS_EMAIL_SERVICE_ID : String := "email"

/-- Modelled from the spec: the email-bundling service identifier constant
(`SETTINGS_EMAIL_BUNDLING_SERVICE_ID` from constants.js, not among the
provided sources); a fixed identifier distinct from the email one. -/
def SETTINGS_EMAIL_BUNDLING_SERVICE_ID : String := "emailbundling"

/-- Modelled from the spec: the outbound bus topic constant
(`BUS_API_EVENT.EMAIL.GENERAL` from constants.js, not among the provided
sources); the claims do not depend on the literal value. -/
def BUS_API_EVENT_EMAIL_GENERAL : String :=
  "notifications.action.email.connect.project.notifications.generic"

/-- User record returned by the user collaborator. -/
structure UserRec where
  email : Option String
  firstName : String
  lastName : String
  handle : String
deriving DecidableEq

/-- Pre-processed notification object handed to the handler. -/
structure NotificationObj where
  userId : String
  newType : Option String
  contents : Contents
deriving DecidableEq

/-- Raw message JSON fields the handler reads. -/
structure MessageJSON where
  projectId : Option String
  topicId : Option String
  postId : Option String
  postContent : Option String
  fileName : Option String
deriving DecidableEq

/-- Embeds `notification.newType || topicName` (email.js line 184): a falsy
(`undefined` or empty) `newType` falls back to the topic name. -/
def effectiveType (topicName : String) (notif : NotificationObj) : String :=
  match notif.newType with
  | some t => if t == "" then topicName else t
  | none => topicName

/-- Deep access `settings.notifications[nt][sid]`. -/
def getNotifSetting (s : Settings) (nt sid : String) : Option ServiceSetting :=
  (lookupAssoc s.notifications nt).bind (fun m => lookupAssoc m sid)

/-- Embeds the early-return guard of email.js lines 192-195: the email
service is explicitly disabled for this notification type iff the nested
setting exists and its `enabled` is strictly `'no'`. -/
def emailDisabled (s : Settings) (nt : String) : Bool :=
  match getNotifSetting s nt SETTINGS_EMAIL_SERVICE_ID with
  | some ss => ss.enabled == some "no"
  | none => false

/-- Embeds the `bundlingEnabled` read of email.js line 281. -/
def readBundlingEnabled (s : Settings) (nt : String) : Option String :=
  (getNotifSetting s nt SETTINGS_EMAIL_BUNDLING_SERVICE_ID).bind (·.enabled)

/-- Embeds the `bundlePeriod` read of email.js line 282. -/
def readBundlePeriod (s : Settings) : Option String :=
  (lookupAssoc s.services SETTINGS_EMAIL_SERVICE_ID).bind (·.bundlePeriod)

/-- Embeds the bundling-default block of email.js lines 284-288: when the
read `bundlingEnabled` is falsy and the event is not a messaging event,
bundling is forced to `'yes'` and a falsy period defaults to `'daily'`;
otherwise both read values pass through unchanged. -/
def resolveBundleSettings (s : Settings) (nt : String) (messagingEvent : Bool) :
    Option String × Option String :=
  let bundlingEnabled := readBundlingEnabled s nt
  let bundlePeriod := readBundlePeriod s
  if !(jsTruthy bundlingEnabled) && !messagingEvent then
    (some "yes", if !(jsTruthy bundlePeriod) then some "daily" else bundlePeriod)
  else
    (bundlingEnabled, bundlePeriod)

/-- Binding list for one optional field: present values contribute one
binding, a JS `undefined` value contributes none. -/
def optField (k : String) : Option String → Contents
  | some v => [(k, v)]
  | none => []

/-- Embeds the construction of `eventMessage.data` (email.js lines 216-237,
247-250, 276-277).  Later JS writes shadow earlier ones, so under
first-match lookup the later-written binding groups are listed first:
`fileName` (line 277), then the messaging enrichment (lines 247-250, with
the numeric `parseInt` conversions abstracted to the raw string values and
the external markdown renderer taken as the parameter `md`), then the
assigned `notification.contents` (line 237), then the dynamic
`data[type] = true` flag (line 236, stringified), then the base object
literal (lines 217-227). -/
def buildEventData (user : UserRec) (now : String) (nt : String)
    (notif : NotificationObj) (msgJSON : MessageJSON)
    (messagingEvent : Bool) (md : String → String) : Contents :=
  optField "fileName" msgJSON.fileName
  ++ (if messagingEvent then
        optField "topicId" msgJSON.topicId
        ++ optField "postId" msgJSON.postId
        ++ (match msgJSON.postContent with
            | some pc => [("post", md pc)]
            | none => [])
      else [])
  ++ notif.contents
  ++ [(nt, "true")]
  ++ [("name", user.firstName ++ " " ++ user.lastName),
      ("handle", user.handle),
      ("date", now)]
  ++ optField "projectName" (lookupAssoc notif.contents "projectName")
  ++ optField "projectId" msgJSON.projectId
  ++ optField "authorHandle" (lookupAssoc notif.contents "userHandle")
  ++ optField "authorFullName" (lookupAssoc notif.contents "userFullName")
  ++ optField "photoURL" (lookupAssoc notif.contents "photoURL")
  ++ [("type", nt)]

/-- Outbound single-notification message skeleton (email.js lines 216-235);
the messaging-only `replyTo`/`cc` enrichment (signed reply token, mention
carbon copy) is not inspected by the verified claims and is omitted. -/
structure EventMessage where
  data : Contents
  recipients : List (Option String)
  version : String
  fromName : Option String
  fromEmail : String
  categories : List String
deriving DecidableEq

/-- Payload produced by `wrapIndividualNotification` (email.js lines
157-170). -/
structure WrappedData where
  subject : String
  connectURL : String
  projects : List ProjectBundle
deriving DecidableEq

/-- Embeds `wrapIndividualNotification(data)` (email.js lines 157-170) on
the notification's contents map (`data.data.data`); a missing bundle
definition for the classified key is the JS `TypeError` (`none`). -/
def wrapIndividualNotification (bundles : BundlesConfig) (cfg : Config)
    (c : Contents) : Option WrappedData :=
  match lookupBundle bundles (getEventGroupKey bundles c) with
  | none => none
  | some g =>
    (getSections bundles [c]).map (fun secs =>
      { subject := replacePlaceholders g.subject [c],
        connectURL := cfg.CONNECT_URL,
        projects := [{ id := lookupAssoc c "projectId",
                       name := lookupAssoc c "projectName",
                       sections := secs }] })

/-- Immediate-path outbound message: the event message with `data` replaced
by the wrapped single-notification payload (email.js lines 309-318). -/
structure ImmediateMsg where
  recipients : List (Option String)
  version : String
  fromName : Option String
  fromEmail : String
  categories : List String
  data : WrappedData
deriving DecidableEq

/-- Record handed to `scheduler.addEvent` (email.js lines 299-306). -/
structure SchedRecord where
  data : EventMessage
  period : String
  userId : String
  eventType : String
  reference : String
  referenceId : Option String
deriving DecidableEq

/-- Errors the handler can raise synchronously: the unsupported
bundle-period configuration error (email.js lines 293-296) and the JS
`TypeError` cases (missing user record, missing bundle definition). -/
inductive HandlerError where
  | unsupportedPeriod (userId period : String)
  | jsTypeError
deriving DecidableEq

/-- Observable outcome of one handler invocation: early return on disabled
settings, a scheduled event handed to the scheduler, or an immediate bus
dispatch. -/
inductive HandlerOutcome where
  | skipped
  | scheduled (record : SchedRecord)
  | dispatched (message : ImmediateMsg)
deriving DecidableEq

/-- Embeds `handler(topicName, messageJSON, notification)` (email.js lines
182-324).  The asynchronous collaborators are replaced by their resolved
values: `settings` (settings collaborator), `users` (user collaborator),
the static configuration modules (`periodTable` for the recognized
`SCHEDULED_EVENT_PERIOD` names, `bundles` for `EVENT_BUNDLES`,
`topicsAndPostsTypes` for `EVENT_BUNDLES.TOPICS_AND_POSTS.types`), the
markdown renderer `md` and the current timestamp `now`.  Logging has no
observable effect and is dropped; in particular a missing user email only
logs (line 206-208) and never stops the flow. -/
def handler (cfg : Config) (periodTable : List String) (bundles : BundlesConfig)
    (topicsAndPostsTypes : List String) (md : String → String) (now : String)
    (settings : Settings) (users : List UserRec)
    (topicName : String) (msgJSON : MessageJSON) (notif : NotificationObj) :
    Except HandlerError HandlerOutcome :=
  let notificationType := effectiveType topicName notif
  if emailDisabled settings notificationType then
    Except.ok HandlerOutcome.skipped
  else
    match users with
    | [] => Except.error HandlerError.jsTypeError
    | user :: _ =>
      let userEmail := if cfg.ENABLE_DEV_MODE == "true" then some cfg.DEV_MODE_EMAIL
                       else user.email
      let recipients := [userEmail]
      let categories := [(cfg.ENV ++ ":" ++ BUS_API_EVENT_EMAIL_GENERAL).toLower]
      let messagingEvent := topicsAndPostsTypes.contains notificationType
      let data := buildEventData user now notificationType notif msgJSON messagingEvent md
      let eventMessage : EventMessage :=
        { data := data, recipients := recipients, version := "v3",
          fromName := lookupAssoc notif.contents "userHandle",
          fromEmail := cfg.DEFAULT_REPLY_EMAIL, categories := categories }
      let reference := if messagingEvent then "topic" else "project"
      let referenceId := if messagingEvent then msgJSON.topicId
                         else lookupAssoc data "projectId"
      let resolved := resolveBundleSettings settings notificationType messagingEvent
      if resolved.1 == some "yes" && jsTruthy resolved.2 then
        let p := optStr resolved.2
        if periodTable.contains p then
          Except.ok (HandlerOutcome.scheduled
            { data := eventMessage, period := p, userId := notif.userId,
              eventType := BUS_API_EVENT_EMAIL_GENERAL,
              reference := reference, referenceId := referenceId })
        else
          Except.error (HandlerError.unsupportedPeriod notif.userId p)
      else
        match wrapIndividualNotification bundles cfg data with
        | none => Except.error HandlerError.jsTypeError
        | some wrapped =>
          Except.ok (HandlerOutcome.dispatched
            { recipients := recipients, version := "v3",
              fromName := lookupAssoc notif.contents "userHandle",
              fromEmail := cfg.DEFAULT_REPLY_EMAIL,
              categories := categories, data := wrapped })

/-- Concrete configuration values used by the closed witnesses. -/
def sampleConfig : Config :=
  ⟨"http://connect", "reply@x.com", "Topcoder", "mention@x.com", "false",
   "dev@x.com", "dev"⟩

/-- Concrete due event (user `u1`, project `p1`) for the batch witness. -/
def sampleDue1 : SchedEvt :=
  ⟨"u1", ⟨[some "a@x.com"],
    [("type", "tg"), ("authorHandle", "alice"), ("projectId", "p1"),
     ("projectName", "P one")]⟩⟩

/-- Concrete due event (user `u1`, project `p2`) for the batch witness. -/
def sampleDue2 : SchedEvt :=
  ⟨"u1", ⟨[some "a@x.com"],
    [("type", "tx"), ("projectId", "p2"), ("projectName", "P two")]⟩⟩

/-- The single outbound bundle the batch processor builds for `u1`'s due
events across the two projects. -/
def sampleBundleOut : BundleOut :=
  ⟨[some "a@x.com"], "reply@x.com", "Topcoder", "reply@x.com", "v3", [],
   ⟨"Your Topcoder project updates", "http://connect",
    [⟨some "p1", some "P one",
      [⟨"By alice", "G",
        [[("type", "tg"), ("authorHandle", "alice"), ("projectId", "p1"),
          ("projectName", "P one")]]⟩]⟩,
     ⟨some "p2", some "P two",
      [⟨"Default title", "DEFAULT",
        [[("type", "tx"), ("projectId", "p2"), ("projectName", "P two")]]⟩]⟩]⟩⟩

/-- Concrete bundle configuration used by the closed witnesses: a
sub-grouping messaging-style group `G` and a sentinel `DEFAULT` group. -/
def sampleBundles : BundlesConfig :=
  [("G", ⟨["tg"], "By <authorHandle>", "subjG", some "authorHandle"⟩),
   ("DEFAULT", ⟨[], "Default title", "subjD", none⟩)]

/-- Concrete event contents used by the closed witnesses: three events of
group `G` by two distinct authors and one unclassified event. -/
def sampleEvents : List Contents :=
  [[("type", "tg"), ("authorHandle", "alice")],
   [("type", "tx")],
   [("type", "tg"), ("authorHandle", "bob")],
   [("type", "tg"), ("authorHandle", "alice")]]

/-- Sections the embedded builder emits for `sampleEvents`. -/
def sampleSections : List Section :=
  [⟨"By alice, alice", "G",
      [[("type", "tg"), ("authorHandle", "alice")],
       [("type", "tg"), ("authorHandle", "alice")]]⟩,
   ⟨"By bob", "G", [[("type", "tg"), ("authorHandle", "bob")]]⟩,
   ⟨"Default title", "DEFAULT", [[("type", "tx")]]⟩]

theorem mem_dedupKeysAux {a : String} :
    ∀ (l seen : List String), a ∈ dedupKeysAux seen l ↔ a ∈ l ∧ a ∉ seen := by
  intro l
  induction l with
  | nil => intro seen; simp [dedupKeysAux]
  | cons k ks ih =>
    intro seen
    by_cases h : k ∈ seen
    · have hc : seen.contains k = true := by simpa [List.contains] using h
      simp only [dedupKeysAux, hc, if_pos]
      rw [ih]
      constructor
      · rintro ⟨h1, h2⟩; exact ⟨List.mem_cons_of_mem _ h1, h2⟩
      · rintro ⟨h1, h2⟩
        rcases List.mem_cons.mp h1 with rfl | h1
        · exact absurd h h2
        · exact ⟨h1, h2⟩
    · have hc : seen.contains k = false := by simpa [List.contains] using h
      simp only [dedupKeysAux, hc, if_neg, Bool.false_eq_true, not_false_iff]
      constructor
      · intro hm
        rcases List.mem_cons.mp hm with rfl | hm
        · exact ⟨List.mem_cons_self _ _, h⟩
        · rcases (ih _).mp hm with ⟨h1, h2⟩
          refine ⟨List.mem_cons_of_mem _ h1, fun hs => h2 (List.mem_cons_of_mem _ hs)⟩
      · rintro ⟨h1, h2⟩
        rcases List.mem_cons.mp h1 with rfl | h1
        · exact List.mem_cons_self _ _
        · by_cases hk : a = k
          · subst hk; exact List.mem_cons_self _ _
          · exact List.mem_cons_of_mem _ ((ih _).mpr
              ⟨h1, fun hs => (List.mem_cons.mp hs).elim hk h2⟩)

theorem nodup_dedupKeysAux : ∀ (l seen : List String), (dedupKeysAux seen l).Nodup := by
  intro l
  induction l with
  | nil => intro seen; simp [dedupKeysAux]
  | cons k ks ih =>
    intro seen
    by_cases h : k ∈ seen
    · have hc : seen.contains k = true := by simpa [List.contains] using h
      simpa only [dedupKeysAux, hc, if_pos] using ih seen
    · have hc : seen.contains k = false := by simpa [List.contains] using h
      simp only [dedupKeysAux, hc, Bool.false_eq_true, not_false_iff, if_neg]
      refine List.nodup_cons.mpr ⟨fun hm => ?_, ih _⟩
      exact ((mem_dedupKeysAux _ _).mp hm).2 (List.mem_cons_self _ _)

theorem mem_dedupKeys {a : String} {l : List String} : a ∈ dedupKeys l ↔ a ∈ l := by
  unfold dedupKeys
  rw [mem_dedupKeysAux]
  simp

theorem nodup_dedupKeys (l : List String) : (dedupKeys l).Nodup :=
  nodup_dedupKeysAux l []

theorem perm_filter_partition (f : α → String) :
    ∀ (ks : List String) (l : List α), ks.Nodup → (∀ x ∈ l, f x ∈ ks) →
      ((ks.map (fun k => l.filter (fun x => f x == k))).flatten).Perm l := by
  intro ks
  induction ks with
  | nil =>
    intro l _ hcov
    have : l = [] := List.eq_nil_iff_forall_not_mem.mpr (fun x hx => by
      simpa using hcov x hx)
    simp [this]
  | cons k ks ih =>
    intro l hnd hcov
    have hknotin : k ∉ ks := (List.nodup_cons.mp hnd).1
    have hnd' : ks.Nodup := (List.nodup_cons.mp hnd).2
    set l' := l.filter (fun x => !(f x == k)) with hl'
    have hcov' : ∀ x ∈ l', f x ∈ ks := by
      intro x hx
      have hxl : x ∈ l := List.mem_of_mem_filter hx
      have hne : ¬ (f x == k) = true := by
        have := List.of_mem_filter hx
        simpa using this
      rcases List.mem_cons.mp (hcov x hxl) with h | h
      · exact absurd (by simp [h]) hne
      · exact h
    have hmap : ks.map (fun k' => l.filter (fun x => f x == k')) =
        ks.map (fun k' => l'.filter (fun x => f x == k')) := by
      apply List.map_congr_left
      intro k' hk'
      have hkk' : k' ≠ k := fun h => hknotin (h ▸ hk')
      rw [hl', List.filter_filter]
      apply List.filter_congr
      intro x _
      by_cases hfx : f x = k'
      · simp [hfx, hkk']
      · simp [hfx]
    simp only [List.map_cons, List.flatten_cons, hmap]
    refine List.Perm.trans (List.Perm.append_left _ (ih l' hnd' hcov')) ?_
    exact List.filter_append_perm _ l

theorem groupByKey_snd_flatten_perm (f : α → String) (l : List α) :
    (((groupByKey f l).map Prod.snd).flatten).Perm l := by
  unfold groupByKey
  rw [List.map_map]
  have : (Prod.snd ∘ fun k => (k, l.filter (fun x => f x == k))) =
      fun k => l.filter (fun x => f x == k) := rfl
  rw [this]
  exact perm_filter_partition f _ l (nodup_dedupKeys _)
    (fun x hx => mem_dedupKeys.mpr (List.mem_map_of_mem f hx))

theorem groupByKey_mem_eq_filter {f : α → String} {l : List α}
    {kg : String × List α} (h : kg ∈ groupByKey f l) :
    kg.2 = l.filter (fun x => f x == kg.1) := by
  unfold groupByKey at h
  rcases List.mem_map.mp h with ⟨k, _, rfl⟩
  rfl

theorem groupByKey_keys (f : α → String) (l : List α) :
    (groupByKey f l).map Prod.fst = dedupKeys (l.map f) := by
  unfold groupByKey
  rw [List.map_map]
  have h : (Prod.fst ∘ fun k => (k, l.filter (fun x => f x == k))) = id := rfl
  rw [h, List.map_id]

theorem groupByKey_keys_nodup (f : α → String) (l : List α) :
    ((groupByKey f l).map Prod.fst).Nodup := by
  rw [groupByKey_keys]
  exact nodup_dedupKeys _

theorem traverseOption_length {f : α → Option β} :
    ∀ {l : List α} {bs : List β}, traverseOption f l = some bs → bs.length = l.length := by
  intro l
  induction l with
  | nil => intro bs h; simp [traverseOption] at h; simp [← h]
  | cons a as ih =>
    intro bs h
    simp only [traverseOption] at h
    cases hfa : f a with
    | none => rw [hfa] at h; simp at h
    | some b =>
      rw [hfa] at h
      cases hrec : traverseOption f as with
      | none => rw [hrec] at h; simp at h
      | some brest =>
        rw [hrec] at h
        simp at h
        rw [← h]
        simp [ih hrec]

theorem traverseOption_mem_flatten {f : α → Option (List β)} :
    ∀ {l : List α} {bss : List (List β)}, traverseOption f l = some bss →
      ∀ b ∈ bss.flatten, ∃ a ∈ l, ∃ bs, f a = some bs ∧ b ∈ bs := by
  intro l
  induction l with
  | nil =>
    intro bss h b hb
    simp [traverseOption] at h
    subst h
    simp at hb
  | cons a as ih =>
    intro bss h b hb
    simp only [traverseOption] at h
    cases hfa : f a with
    | none => rw [hfa] at h; simp at h
    | some bs =>
      rw [hfa] at h
      cases hrec : traverseOption f as with
      | none => rw [hrec] at h; simp at h
      | some brest =>
        rw [hrec] at h
        simp at h
        subst h
        rw [List.flatten_cons] at hb
        rcases List.mem_append.mp hb with hb | hb
        · exact ⟨a, List.mem_cons_self _ _, bs, hfa, hb⟩
        · rcases ih hrec b hb with ⟨a', ha', bs', hfa', hb'⟩
          exact ⟨a', List.mem_cons_of_mem _ ha', bs', hfa', hb'⟩

/-- Auxiliary permutation: flattening the per-group section lists and then
their notification lists permutes the flattened groups, provided each
group's sections permute that group. -/
theorem traverseOption_flatten_perm {F : α → Option (List Section)}
    (grpOf : α → List Contents)
    (hF : ∀ a secs, F a = some secs →
      ((secs.map Section.notifications).flatten).Perm (grpOf a)) :
    ∀ {gs : List α} {pergroup : List (List Section)},
      traverseOption F gs = some pergroup →
      (((pergroup.flatten).map Section.notifications).flatten).Perm
        ((gs.map grpOf).flatten) := by
  intro gs
  induction gs with
  | nil =>
    intro pergroup h
    simp [traverseOption] at h
    subst h
    simp
  | cons a as ih =>
    intro pergroup h
    simp only [traverseOption] at h
    cases hfa : F a with
    | none => rw [hfa] at h; simp at h
    | some secs =>
      rw [hfa] at h
      cases hrec : traverseOption F as with
      | none => rw [hrec] at h; simp at h
      | some prest =>
        rw [hrec] at h
        simp at h
        subst h
        simp only [List.flatten_cons, List.map_cons, List.map_append,
          List.flatten_append]
        exact List.Perm.append (hF a secs hfa) (ih hrec)

/-- Properties of the sections emitted for a single classification group. -/
theorem sectionsForGroup_props {bundles : BundlesConfig} {k : String}
    {grp : List Contents} {secs : List Section}
    (h : sectionsForGroup bundles k grp = some secs) :
    ((secs.map Section.notifications).flatten).Perm grp
    ∧ (∀ s ∈ secs, s.key = k)
    ∧ (∀ s ∈ secs, ∀ c ∈ s.notifications, c ∈ grp)
    ∧ (∀ s ∈ secs, ∀ g, lookupBundle bundles k = some g →
        ∀ fld, g.groupBy = some fld →
        ∀ c ∈ s.notifications, ∀ c' ∈ s.notifications,
          subGroupKey fld c = subGroupKey fld c') := by
  unfold sectionsForGroup at h
  cases hlb : lookupBundle bundles k with
  | none => rw [hlb] at h; simp at h
  | some g =>
    rw [hlb] at h
    dsimp only at h
    cases hgb : g.groupBy with
    | none =>
      rw [hgb] at h
      simp at h
      subst h
      refine ⟨by simp, by simp, by simp, ?_⟩
      intro s hs g' hg' fld hfld c _ c' _
      have hgg : g = g' := Option.some.inj hg'
      subst hgg
      rw [hgb] at hfld
      cases hfld
    | some f0 =>
      rw [hgb] at h
      simp at h
      subst h
      refine ⟨?_, ?_, ?_, ?_⟩
      · rw [List.map_map]
        exact groupByKey_snd_flatten_perm (subGroupKey f0) grp
      · intro s hs
        rcases List.mem_map.mp hs with ⟨kg, _, rfl⟩
        rfl
      · intro s hs c hc
        rcases List.mem_map.mp hs with ⟨kg, hkg, rfl⟩
        have := groupByKey_mem_eq_filter hkg
        simp only at hc
        rw [this] at hc
        exact List.mem_of_mem_filter hc
      · intro s hs g' hg' fld hfld c hc c' hc'
        have hgg : g = g' := Option.some.inj hg'
        subst hgg
        rw [hgb] at hfld
        have hff : f0 = fld := Option.some.inj hfld
        subst hff
        rcases List.mem_map.mp hs with ⟨kg, hkg, rfl⟩
        have heq := groupByKey_mem_eq_filter hkg
        simp only at hc hc'
        rw [heq] at hc hc'
        have h1 := List.of_mem_filter hc
        have h2 := List.of_mem_filter hc'
        rw [eq_of_beq h1, eq_of_beq h2]

/-- C5: the classifier returns the key of the first configured bundle
group (in declaration order) whose `types` set contains the event's type —
so on an overlap the earlier-declared group wins — and the sentinel
`DEFAULT` when no group matches.  The hypothesis that group keys are
nonempty strings reflects the static configuration's named keys (the
source maps a falsy key to the sentinel as well). -/
theorem getEventGroupKey_first_match (bundles : BundlesConfig) (c : Contents)
    (hkeys : ∀ kb ∈ bundles, kb.1 ≠ "") :
    ((∀ kb ∈ bundles, typeMatches c kb.2 = false) ∧
      getEventGroupKey bundles c = "DEFAULT")
    ∨ (∃ pre kb post, bundles = pre ++ kb :: post ∧ typeMatches c kb.2 = true
        ∧ (∀ kb' ∈ pre, typeMatches c kb'.2 = false)
        ∧ getEventGroupKey bundles c = kb.1) := by
  induction bundles with
  | nil => exact Or.inl ⟨by simp, rfl⟩
  | cons kb rest ih =>
    by_cases hm : typeMatches c kb.2 = true
    · right
      refine ⟨[], kb, rest, by simp, hm, by simp, ?_⟩
      have hfind : (kb :: rest).find? (fun kb' => typeMatches c kb'.2) = some kb :=
        List.find?_cons_of_pos _ hm
      unfold getEventGroupKey
      rw [hfind]
      have hne : (kb.1 == "") = false :=
        beq_eq_false_iff_ne.mpr (hkeys kb (List.mem_cons_self _ _))
      simp [hne]
    · have hmf : typeMatches c kb.2 = false := by
        cases h : typeMatches c kb.2
        · rfl
        · exact absurd h hm
      have hkeys' : ∀ kb' ∈ rest, kb'.1 ≠ "" :=
        fun kb' h => hkeys kb' (List.mem_cons_of_mem _ h)
      have hfind : (kb :: rest).find? (fun kb' => typeMatches c kb'.2) =
          rest.find? (fun kb' => typeMatches c kb'.2) :=
        List.find?_cons_of_neg _ (by simp [hmf])
      have hunf : getEventGroupKey (kb :: rest) c = getEventGroupKey rest c := by
        unfold getEventGroupKey
        rw [hfind]
      rcases ih hkeys' with ⟨hall, hdef⟩ | ⟨pre, kb', post, heq, hm', hpre, hres⟩
      · left
        refine ⟨?_, by rw [hunf, hdef]⟩
        intro kb' hkb'
        rcases List.mem_cons.mp hkb' with rfl | h
        · exact hmf
        · exact hall kb' h
      · right
        refine ⟨kb :: pre, kb', post, by simp [heq], hm', ?_, by rw [hunf, hres]⟩
        intro kb'' hkb''
        rcases List.mem_cons.mp hkb'' with rfl | h
        · exact hmf
        · exact hpre kb'' h

/-- Witness for C5 on a two-group configuration sharing the type `t2`:
the earlier group `A` wins. -/
theorem getEventGroupKey_first_match_witness :
    (∀ kb ∈ ([("A", BundleGroup.mk ["t1", "t2"] "tA" "sA" none),
        ("B", BundleGroup.mk ["t2"] "tB" "sB" none)] : BundlesConfig), kb.1 ≠ "") ∧
    (((∀ kb ∈ ([("A", BundleGroup.mk ["t1", "t2"] "tA" "sA" none),
        ("B", BundleGroup.mk ["t2"] "tB" "sB" none)] : BundlesConfig),
        typeMatches [("type", "t2")] kb.2 = false) ∧
      getEventGroupKey [("A", BundleGroup.mk ["t1", "t2"] "tA" "sA" none),
        ("B", BundleGroup.mk ["t2"] "tB" "sB" none)] [("type", "t2")] = "DEFAULT")
    ∨ (∃ pre kb post,
        ([("A", BundleGroup.mk ["t1", "t2"] "tA" "sA" none),
          ("B", BundleGroup.mk ["t2"] "tB" "sB" none)] : BundlesConfig) =
            pre ++ kb :: post ∧
        typeMatches [("type", "t2")] kb.2 = true ∧
        (∀ kb' ∈ pre, typeMatches [("type", "t2")] kb'.2 = false) ∧
        getEventGroupKey [("A", BundleGroup.mk ["t1", "t2"] "tA" "sA" none),
          ("B", BundleGroup.mk ["t2"] "tB" "sB" none)] [("type", "t2")] = kb.1)) :=
  ⟨by decide, getEventGroupKey_first_match _ _ (by decide)⟩

/-- C6: the Section Builder neither drops nor duplicates anything — the
notifications of all emitted sections taken together are a permutation of
the input contents — and every contents item sits in a section matching
its classification group (the section's key flag) and, when that group
sub-partitions, its sub-group value (all items of a section agree on the
`groupBy` field's value). -/
theorem getSections_partition (bundles : BundlesConfig) (events : List Contents)
    (sections : List Section) (h : getSections bundles events = some sections) :
    ((sections.map Section.notifications).flatten).Perm events
    ∧ (∀ s ∈ sections, ∀ c ∈ s.notifications, getEventGroupKey bundles c = s.key)
    ∧ (∀ s ∈ sections, ∀ g, lookupBundle bundles s.key = some g →
        ∀ fld, g.groupBy = some fld →
        ∀ c ∈ s.notifications, ∀ c' ∈ s.notifications,
          subGroupKey fld c = subGroupKey fld c') := by
  unfold getSections at h
  cases htr : traverseOption
      (fun kg => sectionsForGroup bundles kg.1 kg.2)
      (groupByKey (getEventGroupKey bundles) events) with
  | none => rw [htr] at h; simp at h
  | some pergroup =>
    rw [htr] at h
    simp at h
    subst h
    refine ⟨?_, ?_, ?_⟩
    · have hperm := traverseOption_flatten_perm
        (F := fun kg => sectionsForGroup bundles kg.1 kg.2) Prod.snd
        (fun kg secs hs => (sectionsForGroup_props hs).1) htr
      refine hperm.trans ?_
      exact groupByKey_snd_flatten_perm (getEventGroupKey bundles) events
    · intro s hs c hc
      rcases traverseOption_mem_flatten htr s hs with ⟨kg, hkg, secs, hsecs, hmem⟩
      have props := sectionsForGroup_props hsecs
      have hkey : s.key = kg.1 := props.2.1 s hmem
      have hcg : c ∈ kg.2 := props.2.2.1 s hmem c hc
      have hfil := groupByKey_mem_eq_filter hkg
      rw [hfil] at hcg
      have := List.of_mem_filter hcg
      rw [hkey]
      exact eq_of_beq this
    · intro s hs g hg fld hfld c hc c' hc'
      rcases traverseOption_mem_flatten htr s hs with ⟨kg, hkg, secs, hsecs, hmem⟩
      have props := sectionsForGroup_props hsecs
      have hkey : s.key = kg.1 := props.2.1 s hmem
      rw [hkey] at hg
      exact props.2.2.2 s hmem g hg fld hfld c hc c' hc'

theorem filter_flatten_eq_nil {k : String}
    {F : String × List Contents → Option (List Section)}
    (hkeys : ∀ kg secs, F kg = some secs → ∀ s ∈ secs, s.key = kg.1) :
    ∀ {gs : List (String × List Contents)} {pergroup : List (List Section)},
      traverseOption F gs = some pergroup → (∀ kg ∈ gs, kg.1 ≠ k) →
      (pergroup.flatten).filter (fun s => s.key == k) = [] := by
  intro gs
  induction gs with
  | nil =>
    intro pergroup h _
    simp [traverseOption] at h
    subst h
    simp
  | cons kg gs' ih =>
    intro pergroup h hne
    simp only [traverseOption] at h
    cases hfa : F kg with
    | none => rw [hfa] at h; simp at h
    | some secs =>
      rw [hfa] at h
      cases hrec : traverseOption F gs' with
      | none => rw [hrec] at h; simp at h
      | some prest =>
        rw [hrec] at h
        simp at h
        subst h
        rw [List.flatten_cons, List.filter_append]
        have h1 : secs.filter (fun s => s.key == k) = [] := by
          apply List.filter_eq_nil_iff.mpr
          intro s hsm
          have := hkeys kg secs hfa s hsm
          simp [this, hne kg (List.mem_cons_self _ _)]
        rw [h1, ih hrec (fun kg' h' => hne kg' (List.mem_cons_of_mem _ h'))]
        rfl

theorem filter_flatten_hit {k : String} {grp : List Contents}
    {F : String × List Contents → Option (List Section)}
    (hkeys : ∀ kg secs, F kg = some secs → ∀ s ∈ secs, s.key = kg.1) :
    ∀ {gs1 gs2 : List (String × List Contents)} {pergroup : List (List Section)},
      traverseOption F (gs1 ++ (k, grp) :: gs2) = some pergroup →
      (∀ kg ∈ gs1, kg.1 ≠ k) → (∀ kg ∈ gs2, kg.1 ≠ k) →
      ∃ secs, F (k, grp) = some secs ∧
        (pergroup.flatten).filter (fun s => s.key == k) = secs := by
  intro gs1
  induction gs1 with
  | nil =>
    intro gs2 pergroup h _ hne2
    simp only [List.nil_append, traverseOption] at h
    cases hfa : F (k, grp) with
    | none => rw [hfa] at h; simp at h
    | some secs =>
      rw [hfa] at h
      cases hrec : traverseOption F gs2 with
      | none => rw [hrec] at h; simp at h
      | some prest =>
        rw [hrec] at h
        simp at h
        subst h
        refine ⟨secs, rfl, ?_⟩
        rw [List.flatten_cons, List.filter_append]
        have h1 : secs.filter (fun s => s.key == k) = secs := by
          apply List.filter_eq_self.mpr
          intro s hsm
          simp [hkeys (k, grp) secs hfa s hsm]
        rw [h1, filter_flatten_eq_nil hkeys hrec hne2, List.append_nil]
  | cons kg0 gs1' ih =>
    intro gs2 pergroup h hne1 hne2
    simp only [List.cons_append, traverseOption, List.append_eq] at h
    cases hfa : F kg0 with
    | none => rw [hfa] at h; simp at h
    | some secs0 =>
      rw [hfa] at h
      cases hrec : traverseOption F (gs1' ++ (k, grp) :: gs2) with
      | none => rw [hrec] at h; simp at h
      | some prest =>
        rw [hrec] at h
        simp at h
        subst h
        rcases ih hrec (fun kg' h' => hne1 kg' (List.mem_cons_of_mem _ h')) hne2 with
          ⟨secs, hfsecs, hfil⟩
        refine ⟨secs, hfsecs, ?_⟩
        rw [List.flatten_cons, List.filter_append]
        have h0 : secs0.filter (fun s => s.key == k) = [] := by
          apply List.filter_eq_nil_iff.mpr
          intro s hsm
          have := hkeys kg0 secs0 hfa s hsm
          simp [this, hne1 kg0 (List.mem_cons_self _ _)]
        rw [h0, hfil]
        rfl

theorem exists_split_of_mem_keys {β : Type _} {k : String} :
    ∀ {xs : List (String × β)}, (xs.map Prod.fst).Nodup → k ∈ xs.map Prod.fst →
      ∃ pre x post, xs = pre ++ x :: post ∧ x.1 = k ∧
        (∀ y ∈ pre, y.1 ≠ k) ∧ (∀ y ∈ post, y.1 ≠ k) := by
  intro xs
  induction xs with
  | nil => intro _ hk; simp at hk
  | cons x xs' ih =>
    intro hnd hk
    have hnd' : (xs'.map Prod.fst).Nodup := (List.nodup_cons.mp (by simpa using hnd)).2
    by_cases hx : x.1 = k
    · refine ⟨[], x, xs', by simp, hx, by simp, ?_⟩
      intro y hy hyk
      have hhead : x.1 ∉ xs'.map Prod.fst := (List.nodup_cons.mp (by simpa using hnd)).1
      exact hhead (hx ▸ hyk ▸ List.mem_map_of_mem Prod.fst hy)
    · have hk' : k ∈ xs'.map Prod.fst := by
        rw [List.map_cons] at hk
        rcases List.mem_cons.mp hk with h | h
        · exact absurd h.symm hx
        · exact h
      rcases ih hnd' hk' with ⟨pre, y, post, heq, hyk, hpre, hpost⟩
      refine ⟨x :: pre, y, post, by simp [heq], hyk, ?_, hpost⟩
      intro z hz
      rcases List.mem_cons.mp hz with rfl | hz
      · exact hx
      · exact hpre z hz

/-- C7: for a configured group without `groupBy` the Section Builder emits
exactly one section for that group (none when no event classifies to it),
whose title is resolved against the group's full contents list and whose
notifications are that list in original input order; for a group with
`groupBy` it emits exactly one section per distinct value of that field
among the group's events, each resolved against — and carrying — that
partition's contents in original input order. -/
theorem getSections_group_structure (bundles : BundlesConfig)
    (events : List Contents) (sections : List Section) (k : String) (g : BundleGroup)
    (hs : getSections bundles events = some sections)
    (hg : lookupBundle bundles k = some g) :
    (g.groupBy = none →
      sections.filter (fun s => s.key == k) =
        (if events.filter (fun c => getEventGroupKey bundles c == k) = [] then []
         else [{ title := replacePlaceholders g.title
                    (events.filter (fun c => getEventGroupKey bundles c == k)),
                 key := k,
                 notifications :=
                   events.filter (fun c => getEventGroupKey bundles c == k) }]))
    ∧ (∀ fld, g.groupBy = some fld →
        (sections.filter (fun s => s.key == k)).Perm
          ((dedupKeys ((events.filter (fun c => getEventGroupKey bundles c == k)).map
              (subGroupKey fld))).map
            (fun v =>
              { title := replacePlaceholders g.title
                  ((events.filter (fun c => getEventGroupKey bundles c == k)).filter
                    (fun c => subGroupKey fld c == v)),
                key := k,
                notifications :=
                  (events.filter (fun c => getEventGroupKey bundles c == k)).filter
                    (fun c => subGroupKey fld c == v) }))) := by
  unfold getSections at hs
  cases htr : traverseOption
      (fun kg => sectionsForGroup bundles kg.1 kg.2)
      (groupByKey (getEventGroupKey bundles) events) with
  | none => rw [htr] at hs; simp at hs
  | some pergroup =>
    rw [htr] at hs
    simp at hs
    subst hs
    have hkeysF : ∀ (kg : String × List Contents) secs,
        sectionsForGroup bundles kg.1 kg.2 = some secs → ∀ s ∈ secs, s.key = kg.1 :=
      fun kg secs hsecs => (sectionsForGroup_props hsecs).2.1
    by_cases hkmem : k ∈ (groupByKey (getEventGroupKey bundles) events).map Prod.fst
    · rcases exists_split_of_mem_keys (groupByKey_keys_nodup _ _) hkmem with
        ⟨pre, kg0, post, heq, hk0, hpre, hpost⟩
      have hentry : kg0 ∈ groupByKey (getEventGroupKey bundles) events := by
        rw [heq]; exact List.mem_append_right _ (List.mem_cons_self _ _)
      have hgrp : kg0.2 = events.filter (fun c => getEventGroupKey bundles c == k) := by
        rw [groupByKey_mem_eq_filter hentry, hk0]
      have hkg0 : kg0 = (k, events.filter (fun c => getEventGroupKey bundles c == k)) := by
        cases kg0
        simp only at hk0 hgrp
        rw [hk0, hgrp]
      rw [hkg0] at heq
      rw [heq] at htr
      rcases filter_flatten_hit hkeysF htr hpre hpost with ⟨secs, hsecs, hfil⟩
      have hgrpne : events.filter (fun c => getEventGroupKey bundles c == k) ≠ [] := by
        rw [groupByKey_keys] at hkmem
        have : k ∈ events.map (getEventGroupKey bundles) := mem_dedupKeys.mp hkmem
        rcases List.mem_map.mp this with ⟨c, hc, hck⟩
        exact List.ne_nil_of_mem (List.mem_filter.mpr ⟨hc, by simp [hck]⟩)
      unfold sectionsForGroup at hsecs
      rw [hg] at hsecs
      dsimp only at hsecs
      constructor
      · intro hgb
        rw [hgb] at hsecs
        simp at hsecs
        rw [hfil, ← hsecs]
        simp [hgrpne]
      · intro fld hgb
        rw [hgb] at hsecs
        simp at hsecs
        rw [hfil, ← hsecs]
        unfold groupByKey
        rw [List.map_map]
        exact List.Perm.refl _
    · have hallne : ∀ kg ∈ groupByKey (getEventGroupKey bundles) events, kg.1 ≠ k := by
        intro kg hkg hk
        exact hkmem (hk ▸ List.mem_map_of_mem Prod.fst hkg)
      have hnil := filter_flatten_eq_nil hkeysF htr hallne
      have hgrpnil : events.filter (fun c => getEventGroupKey bundles c == k) = [] := by
        apply List.filter_eq_nil_iff.mpr
        intro c hc hck
        apply hkmem
        rw [groupByKey_keys]
        exact mem_dedupKeys.mpr (List.mem_map.mpr ⟨c, hc, eq_of_beq hck⟩)
      constructor
      · intro _
        rw [hnil, hgrpnil]
        simp
      · intro fld _
        rw [hnil, hgrpnil]
        simp [dedupKeys, dedupKeysAux]

/-- Witness for C6 on the concrete sample batch. -/
theorem getSections_partition_witness :
    getSections sampleBundles sampleEvents = some sampleSections ∧
    (((sampleSections.map Section.notifications).flatten).Perm sampleEvents
    ∧ (∀ s ∈ sampleSections, ∀ c ∈ s.notifications,
        getEventGroupKey sampleBundles c = s.key)
    ∧ (∀ s ∈ sampleSections, ∀ g, lookupBundle sampleBundles s.key = some g →
        ∀ fld, g.groupBy = some fld →
        ∀ c ∈ s.notifications, ∀ c' ∈ s.notifications,
          subGroupKey fld c = subGroupKey fld c')) :=
  ⟨by decide, getSections_partition sampleBundles sampleEvents sampleSections (by decide)⟩

/-- Witness for C7 on the concrete sample batch, for the sub-grouping
group `G`. -/
theorem getSections_group_structure_witness :
    getSections sampleBundles sampleEvents = some sampleSections ∧
    lookupBundle sampleBundles "G" =
      some ⟨["tg"], "By <authorHandle>", "subjG", some "authorHandle"⟩ ∧
    ((BundleGroup.groupBy ⟨["tg"], "By <authorHandle>", "subjG", some "authorHandle"⟩ = none →
      sampleSections.filter (fun s => s.key == "G") =
        (if sampleEvents.filter (fun c => getEventGroupKey sampleBundles c == "G") = [] then []
         else [{ title := replacePlaceholders
                    (BundleGroup.title ⟨["tg"], "By <authorHandle>", "subjG", some "authorHandle"⟩)
                    (sampleEvents.filter (fun c => getEventGroupKey sampleBundles c == "G")),
                 key := "G",
                 notifications :=
                   sampleEvents.filter (fun c => getEventGroupKey sampleBundles c == "G") }]))
    ∧ (∀ fld, BundleGroup.groupBy ⟨["tg"], "By <authorHandle>", "subjG", some "authorHandle"⟩ =
          some fld →
        (sampleSections.filter (fun s => s.key == "G")).Perm
          ((dedupKeys ((sampleEvents.filter
              (fun c => getEventGroupKey sampleBundles c == "G")).map
              (subGroupKey fld))).map
            (fun v =>
              { title := replacePlaceholders
                  (BundleGroup.title ⟨["tg"], "By <authorHandle>", "subjG", some "authorHandle"⟩)
                  ((sampleEvents.filter
                    (fun c => getEventGroupKey sampleBundles c == "G")).filter
                    (fun c => subGroupKey fld c == v)),
                key := "G",
                notifications :=
                  (sampleEvents.filter
                    (fun c => getEventGroupKey sampleBundles c == "G")).filter
                    (fun c => subGroupKey fld c == v) })))) :=
  ⟨by decide, by decide,
    getSections_group_structure sampleBundles sampleEvents sampleSections "G"
      ⟨["tg"], "By <authorHandle>", "subjG", some "authorHandle"⟩ (by decide) (by decide)⟩

/-- C1: `replacePlaceholders` returns the template with each `<word>`
token replaced by the un-truncated comma-joined list of the field's values
from every data item in order — the truncated `and N others` display string
is computed but never substituted, for any list length — and with an empty
data list every token is replaced by the empty string (the join of zero
values). -/
theorem replacePlaceholders_untruncated_subst (term : String) (data : List Contents) :
    replacePlaceholders term data = replacePlaceholdersUntruncated term data ∧
    replacePlaceholders term [] =
      (matchPlaceholders term).foldl (fun ret p => replaceFirst ret p "") term :=
  ⟨rfl, rfl⟩

/-- C2: for a value list with at least 3 entries, the computed (then
discarded) truncated display string is the first two values joined with
`', '`, then `' and '`, then the count of remaining items computed as
`total - 3` (followed by the source's space-less literal `others`); in
particular for 5 values the rendered count is 2, not 3. -/
theorem computeReplacement_total_sub_three (vs : List (Option String)) (h : 3 ≤ vs.length) :
    computeReplacement vs =
      joinValues (vs.take 2) ++ " and " ++ toString (vs.length - 3) ++ "others" ∧
    (vs.length = 5 →
      computeReplacement vs = joinValues (vs.take 2) ++ " and " ++ "2" ++ "others") := by
  have hnot : ¬ vs.length < 3 := Nat.not_lt.mpr h
  constructor
  · simp [computeReplacement, hnot]
  · intro h5
    simp [computeReplacement, hnot, h5]
    rfl

/-- Witness for C2 at the concrete value list `a b c d e`. -/
theorem computeReplacement_total_sub_three_witness :
    3 ≤ ([some "a", some "b", some "c", some "d", some "e"] : List (Option String)).length ∧
    (computeReplacement [some "a", some "b", some "c", some "d", some "e"] =
      joinValues (([some "a", some "b", some "c", some "d", some "e"] :
          List (Option String)).take 2) ++ " and " ++
        toString (([some "a", some "b", some "c", some "d", some "e"] :
          List (Option String)).length - 3) ++ "others" ∧
    (([some "a", some "b", some "c", some "d", some "e"] :
        List (Option String)).length = 5 →
      computeReplacement [some "a", some "b", some "c", some "d", some "e"] =
        joinValues (([some "a", some "b", some "c", some "d", some "e"] :
          List (Option String)).take 2) ++ " and " ++ "2" ++ "others")) :=
  ⟨by decide, computeReplacement_total_sub_three _ (by decide)⟩

theorem traverseOption_mem {f : α → Option β} :
    ∀ {l : List α} {bs : List β}, traverseOption f l = some bs →
      ∀ b ∈ bs, ∃ a ∈ l, f a = some b := by
  intro l
  induction l with
  | nil =>
    intro bs h b hb
    simp [traverseOption] at h
    subst h
    simp at hb
  | cons a as ih =>
    intro bs h b hb
    simp only [traverseOption] at h
    cases hfa : f a with
    | none => rw [hfa] at h; simp at h
    | some b0 =>
      rw [hfa] at h
      cases hrec : traverseOption f as with
      | none => rw [hrec] at h; simp at h
      | some brest =>
        rw [hrec] at h
        simp at h
        subst h
        rcases List.mem_cons.mp hb with rfl | hb
        · exact ⟨a, List.mem_cons_self _ _, hfa⟩
        · rcases ih hrec b hb with ⟨a', ha', hfa'⟩
          exact ⟨a', List.mem_cons_of_mem _ ha', hfa'⟩

theorem traverseOption_map_eq {f : α → Option β} {G : β → γ} {H : α → γ}
    (hf : ∀ a b, f a = some b → G b = H a) :
    ∀ {l : List α} {bs : List β}, traverseOption f l = some bs →
      bs.map G = l.map H := by
  intro l
  induction l with
  | nil =>
    intro bs h
    simp [traverseOption] at h
    subst h
    simp
  | cons a as ih =>
    intro bs h
    simp only [traverseOption] at h
    cases hfa : f a with
    | none => rw [hfa] at h; simp at h
    | some b0 =>
      rw [hfa] at h
      cases hrec : traverseOption f as with
      | none => rw [hrec] at h; simp at h
      | some brest =>
        rw [hrec] at h
        simp at h
        subst h
        simp [hf a b0 hfa, ih hrec]

theorem eq_of_keys_nodup {β : Type _} {x y : String × β} :
    ∀ {xs : List (String × β)}, (xs.map Prod.fst).Nodup →
      x ∈ xs → y ∈ xs → x.1 = y.1 → x = y := by
  intro xs
  induction xs with
  | nil => intro _ hx; simp at hx
  | cons z zs ih =>
    intro hnd hx hy hk
    rw [List.map_cons] at hnd
    have hhead : z.1 ∉ zs.map Prod.fst := (List.nodup_cons.mp hnd).1
    have htail : (zs.map Prod.fst).Nodup := (List.nodup_cons.mp hnd).2
    rcases List.mem_cons.mp hx with hxz | hx'
    · rcases List.mem_cons.mp hy with hyz | hy'
      · rw [hxz, hyz]
      · exfalso
        apply hhead
        rw [← hxz, hk]
        exact List.mem_map_of_mem Prod.fst hy'
    · rcases List.mem_cons.mp hy with hyz | hy'
      · exfalso
        apply hhead
        rw [← hyz, ← hk]
        exact List.mem_map_of_mem Prod.fst hx'
      · exact ih htail hx' hy' hk

/-- C3: the batch processor makes exactly one outbound dispatch per user
(one per distinct `userId` among the due events), writes back a status for
every due event exactly once, gives the whole user batch `COMPLETED`
exactly when that user's single dispatch succeeded and `FAILED` when it
was rejected (the rejection is converted, never rethrown), and never mixes
statuses within one user's events. -/
theorem handleScheduledEvents_batch_atomic
    (bundles : BundlesConfig) (cfg : Config) (events : List SchedEvt)
    (dispatchOk : BundleOut → Bool) (ds : List BundleOut)
    (ms : List (List SchedEvt × ScheduledStatus))
    (h : handleScheduledEvents bundles cfg events dispatchOk = some (ds, ms)) :
    ds.length = (dedupKeys (events.map SchedEvt.userId)).length
    ∧ ms.length = ds.length
    ∧ ((ms.map Prod.fst).flatten).Perm events
    ∧ (∀ j (h1 : j < ms.length) (h2 : j < ds.length),
        (ms.get ⟨j, h1⟩).2 =
          if dispatchOk (ds.get ⟨j, h2⟩) then ScheduledStatus.COMPLETED
          else ScheduledStatus.FAILED)
    ∧ (∀ p ∈ ms, ∀ e ∈ p.1, ∀ q ∈ ms, ∀ e' ∈ q.1,
        e.userId = e'.userId → p.2 = q.2) := by
  unfold handleScheduledEvents at h
  by_cases hemp : events.isEmpty
  · rw [if_pos hemp] at h
    simp at h
    obtain ⟨rfl, rfl⟩ := h
    have hev : events = [] := List.isEmpty_iff.mp hemp
    subst hev
    refine ⟨by simp [dedupKeys, dedupKeysAux], rfl, by simp, ?_, by simp⟩
    intro j h1 _
    simp at h1
  · rw [if_neg hemp] at h
    cases htr : traverseOption
        (fun ug => (bundleOutFor bundles cfg ug.2).map (fun m => (ug.2, m)))
        (groupByKey SchedEvt.userId events) with
    | none => rw [htr] at h; simp at h
    | some pairs =>
      rw [htr] at h
      simp at h
      obtain ⟨rfl, rfl⟩ := h
      have hfst : ∀ (ug : String × List SchedEvt) (pr : List SchedEvt × BundleOut),
          (bundleOutFor bundles cfg ug.2).map (fun m => (ug.2, m)) = some pr →
          pr.1 = ug.2 := by
        intro ug pr hpr
        cases hb : bundleOutFor bundles cfg ug.2 with
        | none => rw [hb] at hpr; simp at hpr
        | some m =>
          rw [hb] at hpr
          simp at hpr
          rw [← hpr]
      have hlen := traverseOption_length htr
      have hmapfst : pairs.map Prod.fst =
          (groupByKey SchedEvt.userId events).map Prod.snd :=
        traverseOption_map_eq hfst htr
      refine ⟨?_, ?_, ?_, ?_, ?_⟩
      · rw [List.length_map, hlen]
        unfold groupByKey
        rw [List.length_map]
      · simp
      · have : (pairs.map (fun p =>
            (p.1, if dispatchOk p.2 then ScheduledStatus.COMPLETED
                  else ScheduledStatus.FAILED))).map Prod.fst = pairs.map Prod.fst := by
          rw [List.map_map]
          rfl
        rw [this, hmapfst]
        exact groupByKey_snd_flatten_perm SchedEvt.userId events
      · intro j h1 h2
        simp [List.get_eq_getElem]
      · intro p hp e he q hq e' he' huid
        rcases List.mem_map.mp hp with ⟨pr, hpr, rfl⟩
        rcases List.mem_map.mp hq with ⟨qr, hqr, rfl⟩
        rcases traverseOption_mem htr pr hpr with ⟨kg, hkg, hfkg⟩
        rcases traverseOption_mem htr qr hqr with ⟨kg', hkg', hfkg'⟩
        have hpr1 : pr.1 = kg.2 := hfst kg pr hfkg
        have hqr1 : qr.1 = kg'.2 := hfst kg' qr hfkg'
        have hekey : e.userId = kg.1 := by
          have hfil := groupByKey_mem_eq_filter hkg
          rw [hpr1, hfil] at he
          have hbe := List.of_mem_filter he
          exact eq_of_beq hbe
        have hekey' : e'.userId = kg'.1 := by
          have hfil := groupByKey_mem_eq_filter hkg'
          rw [hqr1, hfil] at he'
          have hbe := List.of_mem_filter he'
          exact eq_of_beq hbe
        have hkk : kg = kg' := by
          apply eq_of_keys_nodup (groupByKey_keys_nodup SchedEvt.userId events)
            hkg hkg'
          rw [← hekey, ← hekey', huid]
        rw [hkk] at hfkg
        rw [hfkg] at hfkg'
        have : pr = qr := Option.some.inj hfkg'
        rw [this]

/-- Witness for C3: one user with events in two projects and a failing
dispatch — a single outbound bundle, both events marked `FAILED`. -/
theorem handleScheduledEvents_batch_atomic_witness :
    handleScheduledEvents sampleBundles sampleConfig [sampleDue1, sampleDue2]
        (fun _ => false) =
      some ([sampleBundleOut], [([sampleDue1, sampleDue2], ScheduledStatus.FAILED)]) ∧
    ([sampleBundleOut].length =
        (dedupKeys (([sampleDue1, sampleDue2]).map SchedEvt.userId)).length
    ∧ ([([sampleDue1, sampleDue2], ScheduledStatus.FAILED)]).length =
        ([sampleBundleOut]).length
    ∧ ((([([sampleDue1, sampleDue2], ScheduledStatus.FAILED)]).map
          Prod.fst).flatten).Perm [sampleDue1, sampleDue2]
    ∧ (∀ j (h1 : j < ([([sampleDue1, sampleDue2], ScheduledStatus.FAILED)]).length)
        (h2 : j < ([sampleBundleOut]).length),
        (([([sampleDue1, sampleDue2], ScheduledStatus.FAILED)]).get ⟨j, h1⟩).2 =
          if (fun _ => false) (([sampleBundleOut]).get ⟨j, h2⟩) then
            ScheduledStatus.COMPLETED
          else ScheduledStatus.FAILED)
    ∧ (∀ p ∈ [([sampleDue1, sampleDue2], ScheduledStatus.FAILED)], ∀ e ∈ p.1,
        ∀ q ∈ [([sampleDue1, sampleDue2], ScheduledStatus.FAILED)], ∀ e' ∈ q.1,
        e.userId = e'.userId → p.2 = q.2)) :=
  ⟨by decide,
    handleScheduledEvents_batch_atomic sampleBundles sampleConfig
      [sampleDue1, sampleDue2] (fun _ => false) [sampleBundleOut]
      [([sampleDue1, sampleDue2], ScheduledStatus.FAILED)] (by decide)⟩

theorem lookupBundle_classify_isSome {bundles : BundlesConfig} {gd : BundleGroup}
    (hdef : lookupBundle bundles "DEFAULT" = some gd) (c : Contents) :
    ∃ g, lookupBundle bundles (getEventGroupKey bundles c) = some g := by
  unfold getEventGroupKey
  cases hf : bundles.find? (fun kb => typeMatches c kb.2) with
  | none => exact ⟨gd, hdef⟩
  | some kb =>
    dsimp only
    by_cases hk : (kb.1 == "") = true
    · rw [if_pos hk]
      exact ⟨gd, hdef⟩
    · rw [if_neg hk]
      have hmem : kb ∈ bundles := List.mem_of_find?_eq_some hf
      have hsome : (bundles.find? (fun p => p.1 == kb.1)).isSome :=
        List.find?_isSome.mpr ⟨kb, hmem, by simp⟩
      cases hfind : bundles.find? (fun p => p.1 == kb.1) with
      | none => rw [hfind] at hsome; simp at hsome
      | some pb =>
        exact ⟨pb.2, by unfold lookupBundle lookupAssoc; rw [hfind]; rfl⟩

theorem getSections_singleton_isSome {bundles : BundlesConfig} {gd : BundleGroup}
    (hdef : lookupBundle bundles "DEFAULT" = some gd) (c : Contents) :
    ∃ secs, getSections bundles [c] = some secs := by
  obtain ⟨g, hgl⟩ := lookupBundle_classify_isSome hdef c
  have hgrp : groupByKey (getEventGroupKey bundles) [c] =
      [(getEventGroupKey bundles c, [c])] := by
    unfold groupByKey dedupKeys
    simp [dedupKeysAux]
  obtain ⟨secs0, hsecs0⟩ :
      ∃ secs0, sectionsForGroup bundles (getEventGroupKey bundles c) [c] = some secs0 := by
    unfold sectionsForGroup
    rw [hgl]
    dsimp only
    cases hgb : g.groupBy with
    | none => exact ⟨_, rfl⟩
    | some f0 => exact ⟨_, rfl⟩
  refine ⟨secs0, ?_⟩
  unfold getSections
  rw [hgrp]
  simp [traverseOption, hsecs0]

theorem wrapIndividual_isSome {bundles : BundlesConfig} {gd : BundleGroup}
    (hdef : lookupBundle bundles "DEFAULT" = some gd) (cfg : Config) (c : Contents) :
    ∃ w, wrapIndividualNotification bundles cfg c = some w := by
  obtain ⟨g, hgl⟩ := lookupBundle_classify_isSome hdef c
  obtain ⟨secs, hsecs⟩ := getSections_singleton_isSome hdef c
  unfold wrapIndividualNotification
  rw [hgl]
  dsimp only
  rw [hsecs]
  exact ⟨_, rfl⟩

/-- C10: when the fetched settings explicitly set `enabled = 'no'` for the
email service under the event's effective notification type, the handler
returns early with no outbound effect — no bus event, no scheduled event —
regardless of every other input (including the bundling defaults that
would otherwise apply, and even an empty user list, since the guard runs
before the user fetch is consumed). -/
theorem handler_disabled_no_effect
    (cfg : Config) (periodTable : List String) (bundles : BundlesConfig)
    (topicsAndPostsTypes : List String) (md : String → String) (now : String)
    (settings : Settings) (users : List UserRec)
    (topicName : String) (msgJSON : MessageJSON) (notif : NotificationObj)
    (h : getNotifSetting settings (effectiveType topicName notif)
          SETTINGS_EMAIL_SERVICE_ID = some ⟨some "no"⟩) :
    handler cfg periodTable bundles topicsAndPostsTypes md now settings users
      topicName msgJSON notif = Except.ok HandlerOutcome.skipped := by
  have hd : emailDisabled settings (effectiveType topicName notif) = true := by
    unfold emailDisabled
    rw [h]
    rfl
  simp [handler, hd]

/-- Witness for C10: concrete settings disabling the email service for the
type `tg`. -/
theorem handler_disabled_no_effect_witness :
    getNotifSetting ⟨[("tg", [(SETTINGS_EMAIL_SERVICE_ID, ⟨some "no"⟩)])], []⟩
        (effectiveType "tg" ⟨"u1", none, []⟩) SETTINGS_EMAIL_SERVICE_ID =
      some ⟨some "no"⟩ ∧
    handler sampleConfig ["daily"] sampleBundles [] (fun s => s) "2020-01-01"
        ⟨[("tg", [(SETTINGS_EMAIL_SERVICE_ID, ⟨some "no"⟩)])], []⟩
        [⟨some "a@x.com", "Ann", "Lee", "ann"⟩] "tg"
        ⟨none, none, none, none, none⟩ ⟨"u1", none, []⟩ =
      Except.ok HandlerOutcome.skipped :=
  ⟨by decide,
    handler_disabled_no_effect sampleConfig ["daily"] sampleBundles [] (fun s => s)
      "2020-01-01" ⟨[("tg", [(SETTINGS_EMAIL_SERVICE_ID, ⟨some "no"⟩)])], []⟩
      [⟨some "a@x.com", "Ann", "Lee", "ann"⟩] "tg"
      ⟨none, none, none, none, none⟩ ⟨"u1", none, []⟩ (by decide)⟩

/-- C8: when bundling resolves to enabled (`'yes'` with a truthy period)
but the resolved period is not in the recognized period table, the handler
raises the configuration error synchronously and the event is neither
scheduled nor dispatched (the outcome is an error, not a scheduled or
dispatched result). -/
theorem handler_unsupported_period_aborts
    (cfg : Config) (periodTable : List String) (bundles : BundlesConfig)
    (topicsAndPostsTypes : List String) (md : String → String) (now : String)
    (settings : Settings) (u : UserRec) (us : List UserRec)
    (topicName : String) (msgJSON : MessageJSON) (notif : NotificationObj)
    (p : String)
    (hskip : emailDisabled settings (effectiveType topicName notif) = false)
    (hres : resolveBundleSettings settings (effectiveType topicName notif)
        (topicsAndPostsTypes.contains (effectiveType topicName notif)) =
        (some "yes", some p))
    (hp : p ≠ "") (hmem : p ∉ periodTable) :
    handler cfg periodTable bundles topicsAndPostsTypes md now settings (u :: us)
        topicName msgJSON notif =
      Except.error (HandlerError.unsupportedPeriod notif.userId p) := by
  have hres' : resolveBundleSettings settings (effectiveType topicName notif)
      (decide ((effectiveType topicName notif) ∈ topicsAndPostsTypes)) =
      (some "yes", some p) := by
    have hc : topicsAndPostsTypes.contains (effectiveType topicName notif) =
        decide ((effectiveType topicName notif) ∈ topicsAndPostsTypes) := by
      simp [List.contains]
    rw [← hc]
    exact hres
  simp [handler, hskip, hres', jsTruthy, hp, hmem, optStr]

/-- Witness for C8: an explicit `weekly` period that the table does not
recognize aborts with the configuration error. -/
theorem handler_unsupported_period_aborts_witness :
    emailDisabled ⟨[("tg", [(SETTINGS_EMAIL_BUNDLING_SERVICE_ID, ⟨some "yes"⟩)])],
        [(SETTINGS_EMAIL_SERVICE_ID, ⟨some "weekly"⟩)]⟩
      (effectiveType "tg" ⟨"u1", none, []⟩) = false ∧
    resolveBundleSettings ⟨[("tg", [(SETTINGS_EMAIL_BUNDLING_SERVICE_ID, ⟨some "yes"⟩)])],
        [(SETTINGS_EMAIL_SERVICE_ID, ⟨some "weekly"⟩)]⟩
      (effectiveType "tg" ⟨"u1", none, []⟩)
      (([] : List String).contains (effectiveType "tg" ⟨"u1", none, []⟩)) =
      (some "yes", some "weekly") ∧
    ("weekly" : String) ≠ "" ∧ "weekly" ∉ ["daily"] ∧
    handler sampleConfig ["daily"] sampleBundles [] (fun s => s) "2020-01-01"
        ⟨[("tg", [(SETTINGS_EMAIL_BUNDLING_SERVICE_ID, ⟨some "yes"⟩)])],
         [(SETTINGS_EMAIL_SERVICE_ID, ⟨some "weekly"⟩)]⟩
        [⟨some "a@x.com", "Ann", "Lee", "ann"⟩] "tg"
        ⟨none, none, none, none, none⟩ ⟨"u1", none, []⟩ =
      Except.error (HandlerError.unsupportedPeriod "u1" "weekly") :=
  ⟨by decide, by decide, by decide, by decide,
    handler_unsupported_period_aborts sampleConfig ["daily"] sampleBundles []
      (fun s => s) "2020-01-01"
      ⟨[("tg", [(SETTINGS_EMAIL_BUNDLING_SERVICE_ID, ⟨some "yes"⟩)])],
       [(SETTINGS_EMAIL_SERVICE_ID, ⟨some "weekly"⟩)]⟩
      ⟨some "a@x.com", "Ann", "Lee", "ann"⟩ [] "tg"
      ⟨none, none, none, none, none⟩ ⟨"u1", none, []⟩ "weekly"
      (by decide) (by decide) (by decide) (by decide)⟩

/-- C9: on the immediate-send path an absent user email never aborts
processing — the handler still dispatches, with the development override
address as the recipient when development mode is enabled and otherwise
with an absent (empty) recipient. -/
theorem handler_missing_email_continues
    (cfg : Config) (periodTable : List String) (bundles : BundlesConfig)
    (topicsAndPostsTypes : List String) (md : String → String) (now : String)
    (settings : Settings) (u : UserRec) (us : List UserRec)
    (topicName : String) (msgJSON : MessageJSON) (notif : NotificationObj)
    (gd : BundleGroup) (be bp : Option String)
    (hemail : u.email = none)
    (hskip : emailDisabled settings (effectiveType topicName notif) = false)
    (hres : resolveBundleSettings settings (effectiveType topicName notif)
        (topicsAndPostsTypes.contains (effectiveType topicName notif)) = (be, bp))
    (hguard : (be == some "yes" && jsTruthy bp) = false)
    (hdef : lookupBundle bundles "DEFAULT" = some gd) :
    ∃ m, handler cfg periodTable bundles topicsAndPostsTypes md now settings
        (u :: us) topicName msgJSON notif =
          Except.ok (HandlerOutcome.dispatched m)
      ∧ m.recipients = [if cfg.ENABLE_DEV_MODE == "true" then
          some cfg.DEV_MODE_EMAIL else none] := by
  obtain ⟨w, hw⟩ := wrapIndividual_isSome hdef cfg
    (buildEventData u now (effectiveType topicName notif) notif msgJSON
      (decide ((effectiveType topicName notif) ∈ topicsAndPostsTypes)) md)
  have hres' : resolveBundleSettings settings (effectiveType topicName notif)
      (decide ((effectiveType topicName notif) ∈ topicsAndPostsTypes)) = (be, bp) := by
    have hc : topicsAndPostsTypes.contains (effectiveType topicName notif) =
        decide ((effectiveType topicName notif) ∈ topicsAndPostsTypes) := by
      simp [List.contains]
    rw [← hc]
    exact hres
  refine ⟨⟨[if cfg.ENABLE_DEV_MODE == "true" then some cfg.DEV_MODE_EMAIL else none],
      "v3", lookupAssoc notif.contents "userHandle", cfg.DEFAULT_REPLY_EMAIL,
      [(cfg.ENV ++ ":" ++ BUS_API_EVENT_EMAIL_GENERAL).toLower], w⟩, ?_, rfl⟩
  cases bp with
  | none => simp [handler, hskip, hres', hemail, jsTruthy, hw]
  | some s =>
    by_cases hs : s = ""
    · subst hs
      simp [handler, hskip, hres', hemail, jsTruthy, hw]
    · have hbne : be ≠ some "yes" := by
        intro hbe1
        rw [hbe1] at hguard
        simp [jsTruthy, hs] at hguard
      simp [handler, hskip, hres', hemail, jsTruthy, hw, hbne]

/-- Witness for C9: a user with no email, development mode off, bundling
explicitly `'no'` — the dispatch proceeds with an absent recipient. -/
theorem handler_missing_email_continues_witness :
    (UserRec.email ⟨none, "Ann", "Lee", "ann"⟩ = none) ∧
    emailDisabled ⟨[("tg", [(SETTINGS_EMAIL_BUNDLING_SERVICE_ID, ⟨some "no"⟩)])], []⟩
      (effectiveType "tg" ⟨"u1", none, []⟩) = false ∧
    resolveBundleSettings ⟨[("tg", [(SETTINGS_EMAIL_BUNDLING_SERVICE_ID, ⟨some "no"⟩)])], []⟩
      (effectiveType "tg" ⟨"u1", none, []⟩)
      (([] : List String).contains (effectiveType "tg" ⟨"u1", none, []⟩)) =
      (some "no", none) ∧
    ((some "no" : Option String) == some "yes" && jsTruthy none) = false ∧
    lookupBundle sampleBundles "DEFAULT" = some ⟨[], "Default title", "subjD", none⟩ ∧
    (∃ m, handler sampleConfig ["daily"] sampleBundles [] (fun s => s) "2020-01-01"
        ⟨[("tg", [(SETTINGS_EMAIL_BUNDLING_SERVICE_ID, ⟨some "no"⟩)])], []⟩
        [⟨none, "Ann", "Lee", "ann"⟩] "tg"
        ⟨none, none, none, none, none⟩ ⟨"u1", none, []⟩ =
          Except.ok (HandlerOutcome.dispatched m)
      ∧ m.recipients = [if sampleConfig.ENABLE_DEV_MODE == "true" then
          some sampleConfig.DEV_MODE_EMAIL else none]) :=
  ⟨by decide, by decide, by decide, by decide, by decide,
    handler_missing_email_continues sampleConfig ["daily"] sampleBundles []
      (fun s => s) "2020-01-01"
      ⟨[("tg", [(SETTINGS_EMAIL_BUNDLING_SERVICE_ID, ⟨some "no"⟩)])], []⟩
      ⟨none, "Ann", "Lee", "ann"⟩ [] "tg"
      ⟨none, none, none, none, none⟩ ⟨"u1", none, []⟩
      ⟨[], "Default title", "subjD", none⟩ (some "no") none
      (by decide) (by decide) (by decide) (by decide) (by decide)⟩

/-- C4: with the bundling-enabled setting unset and no explicit period, a
non-messaging event resolves to bundling with the default `daily` period
and is scheduled (not dispatched), while a messaging-type event never
defaults into bundling and is dispatched immediately. -/
theorem handler_bundling_defaults
    (cfg : Config) (periodTable : List String) (bundles : BundlesConfig)
    (topicsAndPostsTypes : List String) (md : String → String) (now : String)
    (settings : Settings) (u : UserRec) (us : List UserRec)
    (topicName : String) (msgJSON : MessageJSON) (notif : NotificationObj)
    (gd : BundleGroup)
    (hskip : emailDisabled settings (effectiveType topicName notif) = false)
    (hbe : readBundlingEnabled settings (effectiveType topicName notif) = none)
    (hbp : readBundlePeriod settings = none)
    (hdaily : "daily" ∈ periodTable)
    (hdef : lookupBundle bundles "DEFAULT" = some gd) :
    ((effectiveType topicName notif) ∉ topicsAndPostsTypes →
      ∃ r, handler cfg periodTable bundles topicsAndPostsTypes md now settings
          (u :: us) topicName msgJSON notif =
            Except.ok (HandlerOutcome.scheduled r)
        ∧ r.period = "daily")
    ∧ ((effectiveType topicName notif) ∈ topicsAndPostsTypes →
      ∃ m, handler cfg periodTable bundles topicsAndPostsTypes md now settings
          (u :: us) topicName msgJSON notif =
            Except.ok (HandlerOutcome.dispatched m)) := by
  constructor
  · intro hnm
    have hres' : resolveBundleSettings settings (effectiveType topicName notif) false =
        (some "yes", some "daily") := by
      simp [resolveBundleSettings, hbe, hbp, jsTruthy]
    refine ⟨SchedRecord.mk
      (EventMessage.mk
        (buildEventData u now (effectiveType topicName notif) notif msgJSON
          (decide ((effectiveType topicName notif) ∈ topicsAndPostsTypes)) md)
        [if cfg.ENABLE_DEV_MODE == "true" then some cfg.DEV_MODE_EMAIL else u.email]
        "v3" (lookupAssoc notif.contents "userHandle") cfg.DEFAULT_REPLY_EMAIL
        [(cfg.ENV ++ ":" ++ BUS_API_EVENT_EMAIL_GENERAL).toLower])
      "daily" notif.userId BUS_API_EVENT_EMAIL_GENERAL "project"
      (lookupAssoc
        (buildEventData u now (effectiveType topicName notif) notif msgJSON
          (decide ((effectiveType topicName notif) ∈ topicsAndPostsTypes)) md)
        "projectId"), ?_, rfl⟩
    simp [handler, hskip, hres', jsTruthy, optStr, hdaily, hnm]
  · intro hm
    have hres' : resolveBundleSettings settings (effectiveType topicName notif) true =
        (none, none) := by
      simp [resolveBundleSettings, hbe, hbp, jsTruthy]
    obtain ⟨w, hw⟩ := wrapIndividual_isSome hdef cfg
      (buildEventData u now (effectiveType topicName notif) notif msgJSON true md)
    refine ⟨⟨[if cfg.ENABLE_DEV_MODE == "true" then some cfg.DEV_MODE_EMAIL else u.email],
        "v3", lookupAssoc notif.contents "userHandle", cfg.DEFAULT_REPLY_EMAIL,
        [(cfg.ENV ++ ":" ++ BUS_API_EVENT_EMAIL_GENERAL).toLower], w⟩, ?_⟩
    simp [handler, hskip, hres', hw, jsTruthy, hm]

/-- Witness for C4 on concrete inputs: with empty settings the
non-messaging event `tg` is scheduled with period `daily`. -/
theorem handler_bundling_defaults_witness :
    emailDisabled ⟨[], []⟩ (effectiveType "tg" ⟨"u1", none, []⟩) = false ∧
    readBundlingEnabled ⟨[], []⟩ (effectiveType "tg" ⟨"u1", none, []⟩) = none ∧
    readBundlePeriod ⟨[], []⟩ = none ∧
    ("daily" ∈ ["daily"]) ∧
    lookupBundle sampleBundles "DEFAULT" = some ⟨[], "Default title", "subjD", none⟩ ∧
    (effectiveType "tg" ⟨"u1", none, []⟩ ∉ (["topic.created"] : List String)) ∧
    (∃ r, handler sampleConfig ["daily"] sampleBundles ["topic.created"] (fun s => s)
        "2020-01-01" ⟨[], []⟩ [⟨some "a@x.com", "Ann", "Lee", "ann"⟩] "tg"
        ⟨none, none, none, none, none⟩ ⟨"u1", none, []⟩ =
          Except.ok (HandlerOutcome.scheduled r)
      ∧ r.period = "daily") :=
  ⟨by decide, by decide, by decide, by decide, by decide, by decide,
    (handler_bundling_defaults sampleConfig ["daily"] sampleBundles
      ["topic.created"] (fun s => s) "2020-01-01" ⟨[], []⟩
      ⟨some "a@x.com", "Ann", "Lee", "ann"⟩ [] "tg"
      ⟨none, none, none, none, none⟩ ⟨"u1", none, []⟩
      ⟨[], "Default title", "subjD", none⟩
      (by decide) (by decide) (by decide) (by decide) (by decide)).1
      (by decide)⟩

end TcEmail
